import Mathlib

/-!
Shallow embedding of the SNOW-TIME/Server classroom-availability code
(src/classroom_parser.py and src/batch_html_converter.py) and proofs about
its query behaviour.

Modelling conventions:
* A pandas cell is `Option String`: `none` models a null (`pd.isna`), and
  `some s` models a value whose Python string form `str(value)` is `s`.
* Python strings are Lean `String`s; Python's code-point comparison,
  `str.strip()`, `str.replace`, and regex fragments are spelled out as
  explicit functions below.
* A dataframe is a header list plus rows keyed by the integer usage date
  (the `사용일자` column, already coerced to `int`); `df = None` after a
  failed load is `Option.none`.
-/

set_option maxHeartbeats 1000000

namespace SnowTime

/-- A pandas cell as the queries see it: `none` is a pandas null (NaN);
`some s` is a value whose Python string form is `s`. -/
abbrev Cell := Option String

/-- The whitespace set stripped by Python `str.strip()` (ASCII part). -/
def isPySpace (c : Char) : Bool :=
  c == ' ' || c == '\t' || c == '\n' || c == '\r' || c == '\x0b' || c == '\x0c'

/-- Python `str.strip()` on a character list: drop whitespace from both ends. -/
def stripChars (cs : List Char) : List Char :=
  ((cs.dropWhile isPySpace).reverse.dropWhile isPySpace).reverse

/-- Python `s.strip()`. -/
def pyStrip (s : String) : String := String.mk (stripChars s.toList)

/-- Python string comparison `<=` on char lists (code-point lexicographic). -/
def pyLeChars : List Char → List Char → Bool
  | [], _ => true
  | _ :: _, [] => false
  | a :: as, b :: bs =>
    decide (a.toNat < b.toNat) || (decide (a.toNat = b.toNat) && pyLeChars as bs)

/-- Python string `s <= t`; the source's `current_time >= start_time` is
`pyLe start_time current_time`. -/
def pyLe (s t : String) : Bool := pyLeChars s.toList t.toList

/-- The availability test shared by all query operations
(classroom_parser.py lines 90, 134, 160; batch_html_converter.py line 300):
`pd.isna(v) or str(v).strip() in ['', ' ']`. -/
def cellAvailable : Cell → Bool
  | none => true
  | some s => pyStrip s == "" || pyStrip s == " "

/-- The status label attached to a cell: `'사용 가능'` when available, else
`f'사용중 ({usage_info})'` with the raw (untrimmed) cell value interpolated.
The `none` branch of the interpolation is unreachable (nulls are available). -/
def cellStatus (c : Cell) : String :=
  if cellAvailable c then "사용 가능"
  else "사용중 (" ++ (match c with | some s => s | none => "nan") ++ ")"

/-! ### Basic facts about pyStrip -/

theorem dropWhile_eq_cons_head {α : Type} (p : α → Bool) :
    ∀ (l : List α) (a : α) (rest : List α), l.dropWhile p = a :: rest → p a = false := by
  intro l
  induction l with
  | nil => intro a rest h; simp [List.dropWhile] at h
  | cons x xs ih =>
    intro a rest h
    by_cases hp : p x = true
    · rw [List.dropWhile_cons_of_pos hp] at h
      exact ih a rest h
    · rw [List.dropWhile_cons_of_neg (by simpa using hp)] at h
      cases h
      simpa using hp

theorem stripChars_ne_single_space : ∀ cs : List Char, stripChars cs ≠ [' '] := by
  intro cs h
  unfold stripChars at h
  have h2 : (cs.dropWhile isPySpace).reverse.dropWhile isPySpace = [' '] := by
    have h3 := congrArg List.reverse h
    simpa using h3
  have h4 := dropWhile_eq_cons_head isPySpace _ ' ' [] h2
  simp [isPySpace] at h4

theorem pyStrip_ne_space (s : String) : pyStrip s ≠ " " := by
  intro h
  unfold pyStrip at h
  have h1 : stripChars s.toList = [' '] := by
    have h2 := congrArg String.toList h
    simpa using h2
  exact stripChars_ne_single_space _ h1

/-- C7: a cell is classified available iff it is the null marker or its string
form is empty after trimming leading and trailing whitespace; any other value
is occupied and the status label carries the raw untrimmed cell value. -/
theorem cell_availability_rule (s : String) :
    (cellAvailable (some s) = true ↔ pyStrip s = "") ∧
    cellStatus (some s) =
      (if pyStrip s = "" then "사용 가능" else "사용중 (" ++ s ++ ")") ∧
    cellAvailable none = true ∧ cellStatus none = "사용 가능" := by
  have hne := pyStrip_ne_space s
  have hiff : cellAvailable (some s) = true ↔ pyStrip s = "" := by
    unfold cellAvailable
    rw [Bool.or_eq_true, beq_iff_eq, beq_iff_eq]
    constructor
    · rintro (h | h)
      · exact h
      · exact absurd h hne
    · intro h; exact Or.inl h
  refine ⟨hiff, ?_, rfl, rfl⟩
  unfold cellStatus
  by_cases h : pyStrip s = ""
  · rw [if_pos (hiff.mpr h), if_pos h]
  · rw [if_neg (fun hc => h (hiff.mp hc)), if_neg h]

/-! ### The Python string order, as a relation usable for sorting -/

theorem pyLeChars_total : ∀ as bs : List Char,
    pyLeChars as bs = true ∨ pyLeChars bs as = true
  | [], _ => Or.inl rfl
  | _ :: _, [] => Or.inr rfl
  | a :: as, b :: bs => by
    rcases Nat.lt_trichotomy a.toNat b.toNat with h | h | h
    · left; simp [pyLeChars, h]
    · rcases pyLeChars_total as bs with ih | ih
      · left; simp [pyLeChars, h, ih]
      · right; simp [pyLeChars, h.symm, ih]
    · right; simp [pyLeChars, h]

theorem pyLeChars_trans : ∀ as bs cs : List Char,
    pyLeChars as bs = true → pyLeChars bs cs = true → pyLeChars as cs = true
  | [], _, _ => by intro _ _; rfl
  | _ :: _, [], _ => by intro h _; simp [pyLeChars] at h
  | _ :: _, _ :: _, [] => by intro _ h; simp [pyLeChars] at h
  | a :: as, b :: bs, c :: cs => by
    intro h1 h2
    simp only [pyLeChars, Bool.or_eq_true, Bool.and_eq_true, decide_eq_true_eq] at h1 h2 ⊢
    rcases h1 with h1 | ⟨h1e, h1r⟩
    · rcases h2 with h2 | ⟨h2e, _⟩
      · exact Or.inl (by omega)
      · exact Or.inl (by omega)
    · rcases h2 with h2 | ⟨h2e, h2r⟩
      · exact Or.inl (by omega)
      · exact Or.inr ⟨by omega, pyLeChars_trans as bs cs h1r h2r⟩

/-- The Python `<=` order on strings as a proposition, for sorting. -/
def pyLeR (a b : String) : Prop := pyLe a b = true

instance : DecidableRel pyLeR := fun a b =>
  inferInstanceAs (Decidable (pyLe a b = true))

instance : IsTotal String pyLeR :=
  ⟨fun a b => pyLeChars_total a.toList b.toList⟩

instance : IsTrans String pyLeR :=
  ⟨fun a b c => pyLeChars_trans a.toList b.toList c.toList⟩

/-! ### Time-slot column selection (_extract_time_columns) -/

/-- Model of `re.match(r'\d{2}:\d{2}~', col)`: `re.match` anchors only at the start, so
this holds iff the header BEGINS with two digits, a colon, two digits and a
tilde; anything may follow. -/
def isTimeHeader (s : String) : Bool :=
  match s.toList with
  | d1 :: d2 :: c :: d3 :: d4 :: t :: _ =>
    d1.isDigit && d2.isDigit && c == ':' && d3.isDigit && d4.isDigit && t == '~'
  | _ => false

/-- Embeds `_extract_time_columns`: keep the headers matching the time pattern (in
column order) and sort ascending with `list.sort()`.  `list.sort()` is modeled
by insertion sort; the order is linear, so any correct sort produces the same
list. -/
def extractTimeColumns (cols : List String) : List String :=
  List.insertionSort pyLeR (cols.filter isTimeHeader)

/-! ### Tables, parser state and the point query -/

/-- One loaded timetable: the full header list (time-slot headers and others
such as 요일) and rows keyed by the integer 사용일자 value.  A row maps a
column header to its cell.  Rows whose 사용일자 is null are invisible to all
queries modeled here (they can never equal an integer date), so they are not
represented. -/
structure Table where
  columns : List String
  rows : List (Int × (String → Cell))

/-- State of a `ClassroomParser` after `__init__`: metadata extracted from the file
name plus the loaded dataframe.  `df = none` models a failed load (the source
catches every load exception and sets `self.df = None`).  The string-typed
`date` arguments of the Python queries are coerced with `int(date)` before any
table access; the embedding takes the already-coerced integer. -/
structure ClassroomParser where
  building : Option String
  roomNumber : Option String
  capacity : Option Int
  floor : Option Int
  timeColumns : List String
  df : Option Table

/-- Embeds `self.df[self.df['사용일자'] == date]` followed by `.iloc[0]`: the first
row whose usage date equals `date`, if any. -/
def findRow (t : Table) (date : Int) : Option (String → Cell) :=
  (t.rows.find? (fun r => r.1 == date)).map Prod.snd

/-- Embeds `date_data['요일'].iloc[0] if '요일' in date_data.columns else None`. -/
def dayOfWeek (t : Table) (row : String → Cell) : Option Cell :=
  if "요일" ∈ t.columns then some (row "요일") else none

/-- Result dictionary of `get_room_status_at_time`.  The `availableTimes`
field of `invalidTime` models presence of the `available_times` key: only the
variant in batch_html_converter.py ever sets it. -/
inductive StatusResult where
  | error (message : String)
  | noData (message : String)
  | invalidTime (message : String) (availableTimes : Option (List String))
  | success (isAvailable : Bool) (usageInfo : String) (date : Int)
      (time : String) (dayOfWeek : Option Cell)
deriving DecidableEq

/-- Embeds `ClassroomParser.get_room_status_at_time` (classroom_parser.py 68-104). -/
def ClassroomParser.get_room_status_at_time (p : ClassroomParser) (date : Int)
    (time : String) : StatusResult :=
  match p.df with
  | none => .error "데이터 로드 실패"
  | some tbl =>
    match findRow tbl date with
    | none => .noData (toString date ++ " 날짜 데이터 없음")
    | some row =>
      if (time ++ "~") ∈ p.timeColumns then
        let c := row (time ++ "~")
        .success (cellAvailable c) (cellStatus c) date time (dayOfWeek tbl row)
      else
        .invalidTime (time ++ " 시간대 없음") none

/-- Embeds `UniversalClassroomParserFixed.get_room_status_at_time`
(batch_html_converter.py 270-314).  Identical except for the message texts and
the `available_times` key carried by the invalid-time result. -/
def UniversalClassroomParserFixed.get_room_status_at_time (p : ClassroomParser)
    (date : Int) (time : String) : StatusResult :=
  match p.df with
  | none => .error "데이터가 로드되지 않았습니다."
  | some tbl =>
    match findRow tbl date with
    | none => .noData (toString date ++ " 날짜의 데이터를 찾을 수 없습니다.")
    | some row =>
      if (time ++ "~") ∈ p.timeColumns then
        let c := row (time ++ "~")
        .success (cellAvailable c) (cellStatus c) date time (dayOfWeek tbl row)
      else
        .invalidTime (time ++ " 시간대를 찾을 수 없습니다.") (some p.timeColumns)

/-! ### Range queries -/

/-- Embeds `time_col.replace('~', '')`: removes every tilde. -/
def stripTildes (s : String) : String :=
  String.mk (s.toList.filter (fun c => c != '~'))

/-- The scanning loop of `get_available_times_from` with its `start_found`
flag: once a column whose start time compares `>= start_time` has been seen,
every later column is emitted. -/
def availLoop (row : String → Cell) (startTime : String) :
    List String → Bool → List (String × String)
  | [], _ => []
  | col :: rest, found =>
    let current := stripTildes col
    let found2 := found || pyLe startTime current
    if found2 then
      (current, cellStatus (row col)) :: availLoop row startTime rest found2
    else
      availLoop row startTime rest found2

/-- Embeds `ClassroomParser.get_available_times_from` (classroom_parser.py 106-139). -/
def ClassroomParser.get_available_times_from (p : ClassroomParser) (date : Int)
    (startTime : String) : List (String × String) :=
  match p.df with
  | none => []
  | some tbl =>
    match findRow tbl date with
    | none => []
    | some row => availLoop row startTime p.timeColumns false

/-- Result of `get_full_schedule_for_date`: either the error dictionary or the
full result with the ordered `schedule` mapping. -/
inductive ScheduleResult where
  | error (message : String)
  | ok (date : Int) (dayOfWeek : Option Cell) (building : Option String)
      (room : Option String) (floor : Option Int) (capacity : Option Int)
      (schedule : List (String × String))
deriving DecidableEq

/-- The ordered entries of a schedule result (empty for the error case). -/
def scheduleEntriesOf : ScheduleResult → List (String × String)
  | .error _ => []
  | .ok _ _ _ _ _ _ sched => sched

/-- Embeds `ClassroomParser.get_full_schedule_for_date` (classroom_parser.py 141-173).
The `schedule` dictionary is built by inserting the sorted time columns in
order; headers are distinct after a pandas load, so an ordered pair list is a
faithful model of the insertion-ordered dict. -/
def ClassroomParser.get_full_schedule_for_date (p : ClassroomParser)
    (date : Int) : ScheduleResult :=
  match p.df with
  | none => .error "데이터 로드 실패"
  | some tbl =>
    match findRow tbl date with
    | none => .error (toString date ++ " 날짜 데이터 없음")
    | some row =>
      .ok date (dayOfWeek tbl row) p.building p.roomNumber p.floor p.capacity
        (p.timeColumns.map (fun c => (c, cellStatus (row c))))

/-- Embeds `ClassroomParser.get_available_dates` (classroom_parser.py 186-192):
distinct usage dates, sorted ascending. -/
def ClassroomParser.get_available_dates (p : ClassroomParser) : List Int :=
  match p.df with
  | none => []
  | some tbl => List.insertionSort (· ≤ ·) ((tbl.rows.map Prod.fst).dedup)

/-! ### C9: every query is total on a failed load -/

/-- C9: with `df = None` every query operation still returns a value:
the point query and the full schedule return their error dictionaries, and
the range queries return the empty list. -/
theorem null_df_total_queries (p : ClassroomParser) (date : Int)
    (time startTime : String) (h : p.df = none) :
    p.get_room_status_at_time date time = .error "데이터 로드 실패" ∧
    p.get_full_schedule_for_date date = .error "데이터 로드 실패" ∧
    p.get_available_times_from date startTime = [] ∧
    p.get_available_dates = [] := by
  unfold ClassroomParser.get_room_status_at_time
    ClassroomParser.get_full_schedule_for_date
    ClassroomParser.get_available_times_from
    ClassroomParser.get_available_dates
  rw [h]
  exact ⟨rfl, rfl, rfl, rfl⟩

/-- A parser whose load failed. -/
def nullParser : ClassroomParser := ⟨none, none, none, none, [], none⟩

theorem null_df_total_queries_witness :
    nullParser.get_room_status_at_time 20250901 "10:00" = .error "데이터 로드 실패" ∧
    nullParser.get_full_schedule_for_date 20250901 = .error "데이터 로드 실패" ∧
    nullParser.get_available_times_from 20250901 "10:00" = [] ∧
    nullParser.get_available_dates = [] :=
  null_df_total_queries nullParser 20250901 "10:00" "10:00" rfl

/-! ### C8: absent date, point query errors, range query returns empty -/

/-- C8: for a loaded table and a date with no row, the point query reports
the no-data error while the range query returns the empty sequence without
signalling an error. -/
theorem absent_date_asymmetry (p : ClassroomParser) (tbl : Table) (date : Int)
    (time startTime : String) (hdf : p.df = some tbl)
    (habs : findRow tbl date = none) :
    p.get_room_status_at_time date time =
      .noData (toString date ++ " 날짜 데이터 없음") ∧
    p.get_available_times_from date startTime = [] := by
  unfold ClassroomParser.get_room_status_at_time
    ClassroomParser.get_available_times_from
  simp only [hdf, habs]
  refine ⟨?_, ?_⟩ <;> first | rfl | trivial

/-- A loaded table that contains no rows at all. -/
def emptyTable : Table := ⟨["사용일자"], []⟩

/-- A parser over `emptyTable`. -/
def pEmpty : ClassroomParser := ⟨none, none, none, none, [], some emptyTable⟩

theorem absent_date_asymmetry_witness :
    pEmpty.get_room_status_at_time 20250901 "10:00" =
      .noData (toString (20250901 : Int) ++ " 날짜 데이터 없음") ∧
    pEmpty.get_available_times_from 20250901 "10:00" = [] :=
  absent_date_asymmetry pEmpty emptyTable 20250901 "10:00" "10:00" rfl rfl

/-! ### C3: invalid-time payloads of the two parser variants -/

/-- C3 (amended): with the date present but the slot key `time + "~"` absent,
both parsers fail with the invalid-time status; only the
UniversalClassroomParserFixed variant carries the table's (sorted) time-slot
list in the payload, while ClassroomParser's payload is the message alone. -/
theorem invalid_time_payload (p : ClassroomParser) (tbl : Table) (date : Int)
    (time : String) (row : String → Cell) (hdf : p.df = some tbl)
    (hrow : findRow tbl date = some row)
    (htime : (time ++ "~") ∉ p.timeColumns) :
    p.get_room_status_at_time date time =
      .invalidTime (time ++ " 시간대 없음") none ∧
    UniversalClassroomParserFixed.get_room_status_at_time p date time =
      .invalidTime (time ++ " 시간대를 찾을 수 없습니다.") (some p.timeColumns) := by
  unfold ClassroomParser.get_room_status_at_time
    UniversalClassroomParserFixed.get_room_status_at_time
  simp only [hdf, hrow]
  rw [if_neg htime, if_neg htime]
  exact ⟨rfl, rfl⟩

/-- A row with every cell empty. -/
def rowC3 : String → Cell := fun _ => none

/-- A one-row table with a single 10:00 slot. -/
def tblC3 : Table := ⟨["사용일자", "요일", "10:00~"], [(20250901, rowC3)]⟩

/-- Parser over `tblC3`. -/
def pC3 : ClassroomParser := ⟨none, none, none, none, ["10:00~"], some tblC3⟩

/-- C3 counterexample: ClassroomParser's invalid-time result carries no
time-slot list at all (the `available_times` payload is absent), although the
table's slot list is nonempty. -/
theorem invalid_time_payload_cex :
    pC3.get_room_status_at_time 20250901 "11:00" =
      .invalidTime "11:00 시간대 없음" none ∧
    pC3.timeColumns = ["10:00~"] := by
  exact ⟨rfl, rfl⟩

theorem invalid_time_payload_witness :
    pC3.get_room_status_at_time 20250901 "12:00" =
      .invalidTime ("12:00" ++ " 시간대 없음") none ∧
    UniversalClassroomParserFixed.get_room_status_at_time pC3 20250901 "12:00" =
      .invalidTime ("12:00" ++ " 시간대를 찾을 수 없습니다.") (some pC3.timeColumns) :=
  invalid_time_payload pC3 tblC3 20250901 "12:00" rowC3 rfl rfl (by decide)

/-! ### C2: availableFrom versus the full schedule -/

theorem availLoop_true (row : String → Cell) (t : String) :
    ∀ cols : List String, availLoop row t cols true =
      cols.map (fun c => (stripTildes c, cellStatus (row c))) := by
  intro cols
  induction cols with
  | nil => rfl
  | cons c cs ih => simp [availLoop, ih]

theorem availLoop_false (row : String → Cell) (t : String) :
    ∀ cols : List String, availLoop row t cols false =
      (cols.dropWhile (fun c => !(pyLe t (stripTildes c)))).map
        (fun c => (stripTildes c, cellStatus (row c))) := by
  intro cols
  induction cols with
  | nil => rfl
  | cons c cs ih =>
    cases hv : pyLe t (stripTildes c) with
    | true => simp [availLoop, hv, availLoop_true]
    | false => simp [availLoop, hv, ih]

/-- C2 (amended): for a loaded table and a date with a row, the availableFrom
sequence equals the suffix of the full schedule that starts at the first slot
whose start time (the header with tildes removed) compares `>= startTime`,
each slot presented by its start time with its status label preserved.  When
every header matches `HH:MM~` exactly this suffix coincides with the pointwise
restriction to slots `>= startTime`. -/
theorem available_times_eq_schedule_suffix (p : ClassroomParser) (tbl : Table)
    (date : Int) (startTime : String) (row : String → Cell)
    (hdf : p.df = some tbl) (hrow : findRow tbl date = some row) :
    p.get_available_times_from date startTime =
      ((scheduleEntriesOf (p.get_full_schedule_for_date date)).dropWhile
        (fun e => !(pyLe startTime (stripTildes e.1)))).map
        (fun e => (stripTildes e.1, e.2)) := by
  unfold ClassroomParser.get_available_times_from
    ClassroomParser.get_full_schedule_for_date
  simp only [hdf, hrow, scheduleEntriesOf]
  rw [availLoop_false, List.dropWhile_map, List.map_map]
  rfl

/-- A row with every cell empty. -/
def rowC2 : String → Cell := fun _ => none

/-- A loadable table whose two slot headers both match the time pattern but
carry extra characters after the tilde. -/
def tblC2 : Table := ⟨["사용일자", "요일", "10:00~0", "10:00~~"], [(20250901, rowC2)]⟩

/-- Parser over `tblC2`, its time columns produced by the loader. -/
def pC2 : ClassroomParser :=
  ⟨none, none, none, none,
    extractTimeColumns ["사용일자", "요일", "10:00~0", "10:00~~"], some tblC2⟩

/-- C2 counterexample: for startTime "10:000" the returned sequence has two
entries, while the entries of the full schedule restricted to slots whose
start time compares `>= "10:000"` form a one-entry list — the claimed equality
fails on this loaded table. -/
theorem available_times_not_filter_cex :
    (pC2.get_available_times_from 20250901 "10:000").length = 2 ∧
    ((scheduleEntriesOf (pC2.get_full_schedule_for_date 20250901)).filter
      (fun e => pyLe "10:000" (stripTildes e.1))).length = 1 := by
  exact ⟨rfl, rfl⟩

/-! ### C6: which headers become time slots -/

/-- The full-match reading of the header pattern: exactly two digits, a colon,
two digits and a trailing tilde, with nothing after the tilde. -/
def fullTimePattern (s : String) : Bool :=
  match s.toList with
  | [d1, d2, c, d3, d4, t] =>
    d1.isDigit && d2.isDigit && c == ':' && d3.isDigit && d4.isDigit && t == '~'
  | _ => false

/-- The selection condition stated independently of the code: the header
decomposes as two digits, a colon, two digits and a tilde followed by an
arbitrary (possibly empty) remainder. -/
def isTimeHeaderSpec (s : String) : Prop :=
  ∃ (h1 h2 m1 m2 : Char) (rest : List Char),
    s.toList = h1 :: h2 :: ':' :: m1 :: m2 :: '~' :: rest ∧
    h1.isDigit = true ∧ h2.isDigit = true ∧ m1.isDigit = true ∧ m2.isDigit = true

theorem isTimeHeader_iff_spec (s : String) :
    isTimeHeader s = true ↔ isTimeHeaderSpec s := by
  constructor
  · intro h
    unfold isTimeHeader at h
    split at h
    case _ d1 d2 c d3 d4 t rest heq =>
      simp only [Bool.and_eq_true, beq_iff_eq] at h
      obtain ⟨⟨⟨⟨⟨hd1, hd2⟩, hc⟩, hd3⟩, hd4⟩, ht⟩ := h
      exact ⟨d1, d2, d3, d4, rest, by rw [heq, hc, ht], hd1, hd2, hd3, hd4⟩
    case _ => exact absurd h (by simp)
  · rintro ⟨h1, h2, m1, m2, rest, heq, hd1, hd2, hd3, hd4⟩
    unfold isTimeHeader
    rw [heq]
    simp [hd1, hd2, hd3, hd4]

/-- C6 (amended): a header is selected as a time slot iff it BEGINS with the
two-digit:two-digit~ pattern (extra characters after the tilde are allowed,
since `re.match` only anchors at the start), and the resulting slot list is
sorted ascending in the Python string order. -/
theorem time_columns_prefix_pattern_sorted (cols : List String) (c : String) :
    (c ∈ extractTimeColumns cols ↔ c ∈ cols ∧ isTimeHeaderSpec c) ∧
    List.Pairwise pyLeR (extractTimeColumns cols) := by
  constructor
  · unfold extractTimeColumns
    rw [(List.perm_insertionSort pyLeR (cols.filter isTimeHeader)).mem_iff,
      List.mem_filter, isTimeHeader_iff_spec]
  · exact List.sorted_insertionSort pyLeR (cols.filter isTimeHeader)

/-- C6 counterexample: the header "10:00~X" has an extra character after the
tilde yet is selected as a time slot, so selection is not full-pattern
matching. -/
theorem time_columns_extra_chars_cex :
    extractTimeColumns ["10:00~X"] = ["10:00~X"] ∧
    fullTimePattern "10:00~X" = false := by
  exact ⟨rfl, rfl⟩

theorem available_times_eq_schedule_suffix_witness :
    pC2.get_available_times_from 20250901 "10:000" =
      ((scheduleEntriesOf (pC2.get_full_schedule_for_date 20250901)).dropWhile
        (fun e => !(pyLe "10:000" (stripTildes e.1)))).map
        (fun e => (stripTildes e.1, e.2)) :=
  available_times_eq_schedule_suffix pC2 tblC2 20250901 "10:000" rowC2 rfl rfl

/-! ### Filename metadata extraction (the regexes on file names) -/

/-- The character class `[가-힣]` (Hangul syllables U+AC00 to U+D7A3). -/
def isHangul (c : Char) : Bool :=
  decide (0xAC00 ≤ c.toNat) && decide (c.toNat ≤ 0xD7A3)

/-- For `re.search(r'^([가-힣]+관)', name)`: within the leading Hangul run the
greedy `+` with backtracking matches up to the LAST position `j >= 1` holding
`'관'`; the group is the run up to and including that character. -/
def lastGwanIdx (run : List Char) : Option Nat :=
  ((List.range run.length).filter
    (fun j => decide (1 ≤ j) && (run.getD j ' ' == '관'))).getLast?

/-- Model of `re.search(r'^([가-힣]+관)', name)` and its group. -/
def extractBuilding (f : String) : Option String :=
  let run := f.toList.takeWhile isHangul
  match lastGwanIdx run with
  | some i => some (String.mk (run.take (i + 1)))
  | none => none

/-- Model of `re.search(r'관(\d+)', name)`: first position where `'관'` is followed by
at least one digit; the group is the maximal digit run after that `'관'`.
`\d` is modeled by the ASCII digit class. -/
def roomAux : List Char → Option (List Char)
  | [] => none
  | c :: rest =>
    if c = '관' then
      if (rest.takeWhile Char.isDigit).isEmpty then roomAux rest
      else some (rest.takeWhile Char.isDigit)
    else roomAux rest

/-- The room-number group of `re.search(r'관(\d+)', name)`. -/
def extractRoom (f : String) : Option String := (roomAux f.toList).map String.mk

/-- Evaluates `int(...)` on a digit string. -/
def digitsVal (cs : List Char) : Nat :=
  cs.foldl (fun n c => 10 * n + (c.toNat - 48)) 0

/-- Evaluates `int(s)` for a string of ASCII digits. -/
def strDigitsVal (s : String) : Nat := digitsVal s.toList

/-- Model of `re.search(r'수용인원\s*(\d+)명', name)`: scan for the literal 수용인원,
skip whitespace, take a maximal nonempty digit run, require the unit 명. On
failure at a position, the scan resumes one character later. -/
def capAux : List Char → Option Nat
  | [] => none
  | c :: rest =>
    if c = '수' ∧ rest.take 3 = ['용', '인', '원'] then
      let r3 := (rest.drop 3).dropWhile isPySpace
      let ds := r3.takeWhile Char.isDigit
      if ds ≠ [] ∧ (r3.drop ds.length).head? = some '명' then some (digitsVal ds)
      else capAux rest
    else capAux rest

/-- The capacity group of `re.search(r'수용인원\s*(\d+)명', name)`. -/
def extractCapacity (f : String) : Option Nat := capAux f.toList

/-- Embeds `os.path.basename` for POSIX paths. -/
def basename (p : String) : String :=
  String.mk ((p.toList.reverse.takeWhile (fun c => c != '/')).reverse)

/-- The four metadata fields set by `ClassroomParser._extract_basic_info`
(classroom_parser.py lines 38-52), starting from the `None` defaults of
`__init__`.  `self.floor` is assigned only under `if self.room_number:`
(Python truthiness: `None` and the empty string are falsy), so it stays
`None` when no room number was extracted. -/
structure BasicInfo where
  building : Option String
  roomNumber : Option String
  capacity : Option Int
  floor : Option Int
deriving DecidableEq

/-- Embeds `ClassroomParser._extract_basic_info` applied to a file path. -/
def extract_basic_info (filePath : String) : BasicInfo :=
  let fn := basename filePath
  let r := extractRoom fn
  { building := extractBuilding fn
    roomNumber := r
    capacity := (extractCapacity fn).map (fun n => (n : Int))
    floor :=
      match r with
      | some rs => if rs == "" then none else some ((strDigitsVal rs : Int) / 100)
      | none => none }

/-- The floor computed by `HTMLToExcelConverter.create_summary_report`
(batch_html_converter.py line 130): `int(room) // 100 if room.isdigit() else
0`, where `room` is the regex group or the string "Unknown". -/
def summary_report_floor (filePath : String) : Int :=
  let room := (extractRoom (basename filePath)).getD "Unknown"
  if !room.toList.isEmpty && room.toList.all Char.isDigit
  then (strDigitsVal room : Int) / 100
  else 0

/-! ### Facts about the room-number group -/

theorem takeWhile_all {α : Type} (p : α → Bool) :
    ∀ l : List α, (l.takeWhile p).all p = true := by
  intro l
  induction l with
  | nil => rfl
  | cons x xs ih =>
    by_cases h : p x = true
    · simp [List.takeWhile_cons, h, ih]
    · simp [List.takeWhile_cons, h]

theorem roomAux_digits : ∀ cs ds, roomAux cs = some ds →
    ds ≠ [] ∧ ds.all Char.isDigit = true := by
  intro cs
  induction cs with
  | nil => intro ds h; simp [roomAux] at h
  | cons c rest ih =>
    intro ds h
    simp only [roomAux] at h
    by_cases hc : c = '관'
    · rw [if_pos hc] at h
      by_cases he : (rest.takeWhile Char.isDigit).isEmpty = true
      · rw [if_pos he] at h
        exact ih ds h
      · rw [if_neg he] at h
        cases h
        refine ⟨?_, takeWhile_all Char.isDigit rest⟩
        intro hnil
        rw [hnil] at he
        exact he rfl
    · rw [if_neg hc] at h
      exact ih ds h

theorem extractRoom_digits (f : String) (r : String) (h : extractRoom f = some r) :
    r.toList ≠ [] ∧ r.toList.all Char.isDigit = true := by
  unfold extractRoom at h
  cases haux : roomAux f.toList with
  | none => rw [haux] at h; cases h
  | some ds =>
    rw [haux] at h
    cases h
    exact roomAux_digits f.toList ds haux

/-! ### C5: the floor computations -/

/-- C5 (amended): whenever a room number is extracted (it is then a nonempty
digit string), both floor computations yield room div 100; when it is missing,
`ClassroomParser` leaves `floor` as `None`, while `create_summary_report`
reports floor 0 for its "Unknown" placeholder. -/
theorem floor_from_room_number (f : String) :
    (extract_basic_info f).floor =
      ((extract_basic_info f).roomNumber).map
        (fun r => ((strDigitsVal r : Int) / 100)) ∧
    summary_report_floor f =
      (((extractRoom (basename f)).map
        (fun r => ((strDigitsVal r : Int) / 100))).getD 0) := by
  constructor
  · have hfl : (extract_basic_info f).floor =
        (match extractRoom (basename f) with
          | some rs => if rs == "" then none
              else some ((strDigitsVal rs : Int) / 100)
          | none => none) := rfl
    have hroom : (extract_basic_info f).roomNumber = extractRoom (basename f) := rfl
    rw [hfl, hroom]
    cases hr : extractRoom (basename f) with
    | none => rfl
    | some r =>
      have hne := (extractRoom_digits (basename f) r hr).1
      have hbeq : (r == "") = false := by
        rw [beq_eq_false_iff_ne]
        intro hr0
        rw [hr0] at hne
        exact hne rfl
      simp [hbeq]
  · have hsum : summary_report_floor f =
        (match extractRoom (basename f) with
          | some rs =>
            if (!rs.toList.isEmpty && rs.toList.all Char.isDigit) = true
            then ((strDigitsVal rs : Int) / 100) else 0
          | none => 0) := by
      unfold summary_report_floor
      cases extractRoom (basename f) with
      | none => rfl
      | some rs => rfl
    rw [hsum]
    cases hr : extractRoom (basename f) with
    | none => rfl
    | some r =>
      have ⟨hne, hdig⟩ := extractRoom_digits (basename f) r hr
      have hcond : (!r.toList.isEmpty && r.toList.all Char.isDigit) = true := by
        rw [Bool.and_eq_true, Bool.not_eq_true']
        exact ⟨by simpa [List.isEmpty_iff] using hne, hdig⟩
      show (if (!r.toList.isEmpty && r.toList.all Char.isDigit) = true
        then ((strDigitsVal r : Int) / 100) else 0) = ((strDigitsVal r : Int) / 100)
      exact if_pos hcond

/-- C5 counterexample: for the file name "abc.xlsx" no room number is
extracted, and the parser's floor is `None` rather than 0. -/
theorem floor_none_when_room_missing_cex :
    (extract_basic_info "abc.xlsx").roomNumber = none ∧
    (extract_basic_info "abc.xlsx").floor = none ∧
    summary_report_floor "abc.xlsx" = 0 := by
  exact ⟨rfl, rfl, rfl⟩

/-! ### C4: the catalog scan -/

/-- Embeds `file.endswith('_converted.xlsx')`. -/
def endsConverted (f : String) : Bool :=
  "_converted.xlsx".toList.isSuffixOf f.toList

/-- One catalog entry built by `ClassroomSearcher._scan_available_files`. -/
structure RoomEntry where
  filePath : String
  building : String
  roomNumber : String
  floor : Int
  capacity : Int
  filename : String
deriving DecidableEq

/-- Embeds `ClassroomSearcher._scan_available_files` (classroom_parser.py 202-233)
over a directory listing: files ending in `_converted.xlsx` yield an entry
only under `if building_match and room_match:`. -/
def scan_available_files (dir : String) : List String → List RoomEntry
  | [] => []
  | f :: fs =>
    if endsConverted f then
      match extractBuilding f, extractRoom f with
      | some b, some r =>
        { filePath := dir ++ "/" ++ f, building := b, roomNumber := r,
          floor := (strDigitsVal r : Int) / 100,
          capacity := ((extractCapacity f).getD 0 : Nat),
          filename := f } :: scan_available_files dir fs
      | some _, none => scan_available_files dir fs
      | none, _ => scan_available_files dir fs
    else scan_available_files dir fs

/-- C4 (amended): a file of the directory listing yields a catalog entry iff
it ends in `_converted.xlsx` AND both its building name and room number parse;
files failing either parse are dropped at scan time, not merely filtered out
by later queries. -/
theorem scan_includes_iff_parsable (dir : String) (files : List String)
    (f : String) :
    f ∈ (scan_available_files dir files).map RoomEntry.filename ↔
      f ∈ files ∧ endsConverted f = true ∧
        (extractBuilding f).isSome = true ∧ (extractRoom f).isSome = true := by
  induction files with
  | nil => simp [scan_available_files]
  | cons g gs ih =>
    by_cases hg : endsConverted g = true
    · cases hb : extractBuilding g with
      | some b =>
        cases hr : extractRoom g with
        | some r =>
          simp only [scan_available_files, hg, if_pos, hb, hr, List.map_cons,
            List.mem_cons]
          constructor
          · rintro (hfg | h)
            · refine ⟨Or.inl hfg, ?_⟩
              rw [hfg]
              exact ⟨hg, by rw [hb]; rfl, by rw [hr]; rfl⟩
            · have := ih.mp h
              exact ⟨Or.inr this.1, this.2⟩
          · rintro ⟨hfg | hmem, hrest⟩
            · exact Or.inl hfg
            · exact Or.inr (ih.mpr ⟨hmem, hrest⟩)
        | none =>
          simp only [scan_available_files, hg, if_pos, hb, hr]
          constructor
          · intro h
            have := ih.mp h
            exact ⟨List.mem_cons_of_mem g this.1, this.2⟩
          · rintro ⟨hmem, hrest⟩
            rcases List.mem_cons.mp hmem with hfg | hmem2
            · exfalso
              rw [hfg, hr] at hrest
              exact Bool.false_ne_true hrest.2.2
            · exact ih.mpr ⟨hmem2, hrest⟩
      | none =>
        simp only [scan_available_files, hg, if_pos, hb]
        constructor
        · intro h
          have := ih.mp h
          exact ⟨List.mem_cons_of_mem g this.1, this.2⟩
        · rintro ⟨hmem, hrest⟩
          rcases List.mem_cons.mp hmem with hfg | hmem2
          · exfalso
            rw [hfg, hb] at hrest
            exact Bool.false_ne_true hrest.2.1
          · exact ih.mpr ⟨hmem2, hrest⟩
    · simp only [scan_available_files, if_neg hg]
      constructor
      · intro h
        have := ih.mp h
        exact ⟨List.mem_cons_of_mem g this.1, this.2⟩
      · rintro ⟨hmem, hrest⟩
        rcases List.mem_cons.mp hmem with hfg | hmem2
        · exfalso
          rw [hfg] at hrest
          exact hg hrest.1
        · exact ih.mpr ⟨hmem2, hrest⟩

/-- C4 counterexample: "abc_converted.xlsx" matches the converted-table naming
convention but has no parseable building name, and the scan yields NO catalog
entry for it. -/
theorem scan_excludes_unparsable_cex :
    scan_available_files "data" ["abc_converted.xlsx"] = [] ∧
    endsConverted "abc_converted.xlsx" = true := by
  exact ⟨rfl, rfl⟩

/-! ### C10: criteria filtering -/

/-- Embeds `ClassroomSearcher.find_rooms_by_criteria` (classroom_parser.py 235-249):
the building criterion is applied under `if building:` (Python truthiness, so
`None` AND the empty string skip it), floor and min_capacity under
`if ... is not None:`. -/
def find_rooms_by_criteria (files : List RoomEntry) (building : Option String)
    (floor : Option Int) (minCapacity : Option Int) : List RoomEntry :=
  let f1 :=
    match building with
    | some b => if b == "" then files else files.filter (fun e => e.building == b)
    | none => files
  let f2 :=
    match floor with
    | some fl => f1.filter (fun e => e.floor == fl)
    | none => f1
  match minCapacity with
  | some m => f2.filter (fun e => decide (m ≤ e.capacity))
  | none => f2

/-- C10: filtering with building = "" returns the same entries as omitting the
building criterion, while floor = 0 genuinely constrains the result to
floor-0 entries. -/
theorem criteria_truthiness (files : List RoomEntry) (b : Option String)
    (fl mc : Option Int) :
    find_rooms_by_criteria files (some "") fl mc =
      find_rooms_by_criteria files none fl mc ∧
    (find_rooms_by_criteria files b (some 0) mc).all
      (fun e => e.floor == 0) = true := by
  constructor
  · rfl
  · rw [List.all_eq_true]
    intro e he
    unfold find_rooms_by_criteria at he
    cases mc with
    | none =>
      dsimp only at he
      exact (List.mem_filter.mp he).2
    | some m =>
      dsimp only at he
      exact (List.mem_filter.mp (List.mem_filter.mp he).1).2

/-! ### C1: the search over candidate rooms -/

/-- Python substring containment `needle in hay` on char lists. -/
def isInfixChars (needle : List Char) : List Char → Bool
  | [] => needle.isEmpty
  | c :: rest => needle.isPrefixOf (c :: rest) || isInfixChars needle rest

/-- Python `needle in hay` for strings. -/
def strContains (hay needle : String) : Bool :=
  isInfixChars needle.toList hay.toList

/-- The availability marker tested by the search loop. -/
def availMarker : String := "사용 가능"

/-- The counting loop of `search_available_rooms`:
`if '사용 가능' in status: consecutive += 1 else: break`.  NOTE: this is
substring containment on the status label, not an availability test. -/
def countConsecutive : List (String × String) → Nat
  | [] => 0
  | ts :: rest =>
    if strContains ts.2 availMarker then countConsecutive rest + 1 else 0

/-- The body of the `for room_info in candidate_rooms` loop of
`search_available_rooms`.  The file system is abstracted by `load`, mapping a
file path to the parser state `ClassroomParser(path)` produces (a failed load
gives `df = none`, so construction never raises and `except: continue` is
dead code).  The dict updates `room_info['consecutive_hours']` and
`room_info['parser']` are modeled by pairing the entry with the hours value
(`consecutive_available / 2` is exact float division by 2, modeled in ℚ); the
stashed parser object is dropped. -/
def searchLoop (load : String → ClassroomParser) (date : Int)
    (startTime : String) (durationHours : Int) :
    List RoomEntry → List (RoomEntry × ℚ)
  | [] => []
  | e :: es =>
    let avail := (load e.filePath).get_available_times_from date startTime
    if avail.isEmpty then searchLoop load date startTime durationHours es
    else
      let consec := countConsecutive avail
      if durationHours * 2 ≤ (consec : Int) then
        (e, (consec : ℚ) / 2) :: searchLoop load date startTime durationHours es
      else searchLoop load date startTime durationHours es

/-- Embeds `ClassroomSearcher.search_available_rooms` (classroom_parser.py 261-294). -/
def search_available_rooms (load : String → ClassroomParser)
    (files : List RoomEntry) (building : String) (floor : Int) (date : Int)
    (startTime : String) (durationHours : Int) : List (RoomEntry × ℚ) :=
  searchLoop load date startTime durationHours
    (find_rooms_by_criteria files (some building) (some floor) none)

/-- The search as the amended claim words it: for each candidate entry
(filtered by building and floor), count the maximal prefix of the
availableFrom sequence whose status label CONTAINS the marker '사용 가능' as a
substring; keep the entry iff the sequence is nonempty and the count is at
least durationHours × 2, reporting consecutive_hours = count / 2. -/
def searchSpec (load : String → ClassroomParser) (files : List RoomEntry)
    (building : String) (floor : Int) (date : Int) (startTime : String)
    (durationHours : Int) : List (RoomEntry × ℚ) :=
  (find_rooms_by_criteria files (some building) (some floor) none).filterMap
    (fun e =>
      let avail := (load e.filePath).get_available_times_from date startTime
      let run := (avail.takeWhile (fun ts => strContains ts.2 availMarker)).length
      if avail ≠ [] ∧ durationHours * 2 ≤ (run : Int)
      then some (e, (run : ℚ) / 2) else none)

theorem countConsecutive_eq_takeWhile (l : List (String × String)) :
    countConsecutive l =
      (l.takeWhile (fun ts => strContains ts.2 availMarker)).length := by
  induction l with
  | nil => rfl
  | cons ts rest ih =>
    by_cases h : strContains ts.2 availMarker = true
    · simp [countConsecutive, h, List.takeWhile_cons, ih]
    · simp [countConsecutive, h, List.takeWhile_cons]

theorem searchLoop_eq (load : String → ClassroomParser) (date : Int)
    (t : String) (dur : Int) :
    ∀ es : List RoomEntry, searchLoop load date t dur es =
      es.filterMap (fun e =>
        let avail := (load e.filePath).get_available_times_from date t
        let run := (avail.takeWhile (fun ts => strContains ts.2 availMarker)).length
        if avail ≠ [] ∧ dur * 2 ≤ (run : Int)
        then some (e, (run : ℚ) / 2) else none) := by
  intro es
  induction es with
  | nil => rfl
  | cons e es ih =>
    rw [List.filterMap_cons]
    by_cases he : ((load e.filePath).get_available_times_from date t) = []
    · simp [searchLoop, he, ih]
    · have hie : ((load e.filePath).get_available_times_from date t).isEmpty
          = false := by
        simpa [List.isEmpty_iff] using he
      by_cases hg : dur * 2 ≤
          (((((load e.filePath).get_available_times_from date t)).takeWhile
            (fun ts => strContains ts.2 availMarker)).length : Int)
      · simp [searchLoop, hie, countConsecutive_eq_takeWhile, hg, he, ih]
      · simp [searchLoop, hie, countConsecutive_eq_takeWhile, hg, he, ih]

/-- C1 (amended): `search_available_rooms` equals the spec-side description:
count the maximal prefix of the availableFrom sequence whose status label
contains the marker '사용 가능' as a SUBSTRING (which agrees with the
all-available prefix unless an occupant label itself contains the marker);
keep the entry iff the sequence is nonempty and count ≥ durationHours × 2,
reporting consecutive_hours = count / 2. -/
theorem search_available_rooms_eq_spec (load : String → ClassroomParser)
    (files : List RoomEntry) (building : String) (floor : Int) (date : Int)
    (startTime : String) (durationHours : Int) :
    search_available_rooms load files building floor date startTime
        durationHours =
      searchSpec load files building floor date startTime durationHours :=
  searchLoop_eq load date startTime durationHours _

/-- A catalog entry for the counterexample room. -/
def entC1 : RoomEntry :=
  ⟨"data/공학관901_converted.xlsx", "공학관", "901", 9, 0,
    "공학관901_converted.xlsx"⟩

/-- Cells of the counterexample room: 09:00 free, 09:30 occupied by a label
containing the marker text, 10:00 occupied by 수업. -/
def rowC1 : String → Cell := fun c =>
  if c = "09:30~" then some "X사용 가능"
  else if c = "10:00~" then some "수업" else none

/-- The counterexample timetable. -/
def tblC1 : Table := ⟨["사용일자", "09:00~", "09:30~", "10:00~"], [(20250901, rowC1)]⟩

/-- Parser state for the counterexample room. -/
def pC1 : ClassroomParser :=
  ⟨some "공학관", some "901", none, some 9,
    ["09:00~", "09:30~", "10:00~"], some tblC1⟩

/-- Loading any path yields the counterexample parser. -/
def loadC1 : String → ClassroomParser := fun _ => pC1

/-- C1 counterexample: a one-hour request (needs 2 slots) keeps the room even
though the maximal all-available prefix of its availableFrom sequence has
length 1 — the occupied 09:30 slot's label "X사용 가능" contains the marker
substring, so the loop counts past the first occupied slot. -/
theorem search_counts_marker_substring_cex :
    (search_available_rooms loadC1 [entC1] "공학관" 9 20250901 "09:00" 1).map
        Prod.fst = [entC1] ∧
    ((pC1.get_available_times_from 20250901 "09:00").takeWhile
      (fun ts => ts.2 == "사용 가능")).length = 1 := by
  exact ⟨rfl, rfl⟩

end SnowTime
